import Mathlib

/-!
Verification of the escape-time core of `naive_mandelbrot.py`.

The program's floating-point values are modelled as exact rationals (ℚ),
Python `complex` as a pair of rationals, Python `int` counters as ℕ.
The three source functions `mandelbrot_point`, `linspace` and
`mandelbrot_grid` are embedded below, following the source line by line.
-/

/-- A complex sample point, mirroring Python's `complex` with its `real`
and `imag` components. -/
structure Cplx where
  real : ℚ
  imag : ℚ
deriving DecidableEq, Repr

/-- Complex multiplication on `Cplx`, as Python's `z * z` computes it. -/
def cMul (a b : Cplx) : Cplx :=
  ⟨a.real * b.real - a.imag * b.imag, a.real * b.imag + a.imag * b.real⟩

/-- Complex addition on `Cplx`, as Python's `z * z + c` computes it. -/
def cAdd (a b : Cplx) : Cplx :=
  ⟨a.real + b.real, a.imag + b.imag⟩

/-- The squared magnitude `z.real * z.real + z.imag * z.imag` tested
against `4.0` in the source's escape check. -/
def sqAbs (z : Cplx) : ℚ :=
  z.real * z.real + z.imag * z.imag

/-- The `for n in range(max_iter)` loop of `mandelbrot_point`: `fuel`
iterations remain and `n` iterations have been performed.  Each step sets
`z = z * z + c`, returns `n` if the squared magnitude of the new `z`
exceeds 4, and otherwise continues; when the fuel runs out it returns
`n`, which by then equals `max_iter`. -/
def mandelAux (c : Cplx) : Cplx → Nat → Nat → Nat
  | _, 0, n => n
  | z, fuel + 1, n =>
    if 4 < sqAbs (cAdd (cMul z z) c) then n
    else mandelAux c (cAdd (cMul z z) c) fuel (n + 1)

/-- `mandelbrot_point(c, max_iter)` from the source: iteration count for a
single complex number, starting from `z = 0 + 0j`. -/
def mandelbrot_point (c : Cplx) (max_iter : Nat) : Nat :=
  mandelAux c ⟨0, 0⟩ max_iter 0

/-- `linspace(start, stop, num)` from the source.  `num` is cast to ℚ
before the subtraction `num - 1`, matching Python integer arithmetic
(for `num = 0` the divisor is `-1`, not `0`). -/
def linspace (start stop : ℚ) (num : Nat) : List ℚ :=
  if num = 1 then [start]
  else
    (List.range num).map
      (fun (i : Nat) => start + (i : ℚ) * ((stop - start) / ((num : ℚ) - 1)))

/-- `mandelbrot_grid` from the source: `xs = linspace(xmin, xmax, width)`,
`ys = linspace(ymin, ymax, height)`, and `iters[j][i] =
mandelbrot_point(xs[i] + 1j * ys[j], max_iter)` for `j` in
`range(height)` and `i` in `range(width)`. -/
def mandelbrot_grid (xmin xmax ymin ymax : ℚ) (width height max_iter : Nat) :
    List (List Nat) :=
  let xs := linspace xmin xmax width
  let ys := linspace ymin ymax height
  (List.range height).map (fun j =>
    (List.range width).map (fun i =>
      mandelbrot_point ⟨xs.getD i 0, ys.getD j 0⟩ max_iter))

/-- The Coordinate Sampler as §4.1 of the spec words it, for comparison
with the source's `linspace`: it fails with an `InvalidArgument` error
kind when `count < 1`. -/
def sample_axis_spec (start stop : ℚ) (count : Nat) : Except String (List ℚ) :=
  if count < 1 then Except.error "InvalidArgument"
  else Except.ok (linspace start stop count)

/-! ### Helper lemmas -/

lemma getD_map_range {α : Type} (f : Nat → α) (d : α) {n i : Nat} (h : i < n) :
    ((List.range n).map f).getD i d = f i := by
  rw [List.getD_eq_getElem?_getD, List.getElem?_map, List.getElem?_range h]
  rfl

lemma linspace_length (start stop : ℚ) (num : Nat) :
    (linspace start stop num).length = num := by
  unfold linspace
  rcases eq_or_ne num 1 with h | h
  · subst h
    rw [if_pos rfl]
    rfl
  · rw [if_neg h, List.length_map, List.length_range]

lemma linspace_getD (start stop : ℚ) {num i : Nat} (h1 : num ≠ 1) (hi : i < num) :
    (linspace start stop num).getD i 0
      = start + (i : ℚ) * ((stop - start) / ((num : ℚ) - 1)) := by
  unfold linspace
  rw [if_neg h1, getD_map_range _ _ hi]

lemma grid_cell (xmin xmax ymin ymax : ℚ) (w h m j i : Nat)
    (hj : j < h) (hi : i < w) :
    ((mandelbrot_grid xmin xmax ymin ymax w h m).getD j []).getD i 0
      = mandelbrot_point
          ⟨(linspace xmin xmax w).getD i 0, (linspace ymin ymax h).getD j 0⟩ m := by
  simp only [mandelbrot_grid]
  rw [getD_map_range _ _ hj, getD_map_range _ _ hi]

lemma grid_width_zero (xmin xmax ymin ymax : ℚ) (h m : Nat) :
    mandelbrot_grid xmin xmax ymin ymax 0 h m = List.replicate h [] := by
  simp [mandelbrot_grid, List.map_const']

lemma mandelAux_le (c : Cplx) :
    ∀ (fuel : Nat) (z : Cplx) (n : Nat), mandelAux c z fuel n ≤ n + fuel := by
  intro fuel
  induction fuel with
  | zero => intro z n; simp [mandelAux]
  | succ k ih =>
    intro z n
    rw [mandelAux]
    split
    · omega
    · have := ih (cAdd (cMul z z) c) (n + 1)
      omega

lemma mandelAux_of_inv (c : Cplx) (P : Cplx → Prop)
    (hP : ∀ z, P z →
      ¬ 4 < sqAbs (cAdd (cMul z z) c) ∧ P (cAdd (cMul z z) c)) :
    ∀ (fuel : Nat) (z : Cplx) (n : Nat), P z → mandelAux c z fuel n = n + fuel := by
  intro fuel
  induction fuel with
  | zero => intro z n _; simp [mandelAux]
  | succ k ih =>
    intro z n hz
    obtain ⟨hlt, hP2⟩ := hP z hz
    rw [mandelAux, if_neg hlt, ih _ _ hP2]
    omega

lemma mandelAux_succ (c z : Cplx) (fuel n : Nat) :
    mandelAux c z (fuel + 1) n
      = if 4 < sqAbs (cAdd (cMul z z) c) then n
        else mandelAux c (cAdd (cMul z z) c) fuel (n + 1) := rfl

lemma step_zero (c : Cplx) : cAdd (cMul ⟨0, 0⟩ ⟨0, 0⟩) c = c := by
  rcases c with ⟨x, y⟩
  norm_num [cAdd, cMul, Cplx.mk.injEq]

lemma mandelbrot_point_escape0 (c : Cplx) (m : Nat) (h : 4 < sqAbs c) :
    mandelbrot_point c (m + 1) = 0 := by
  show mandelAux c ⟨0, 0⟩ (m + 1) 0 = 0
  rw [mandelAux_succ, step_zero, if_pos h]

lemma mandelbrot_point_escape1 (c : Cplx) (m : Nat) (h0 : ¬ 4 < sqAbs c)
    (h1 : 4 < sqAbs (cAdd (cMul c c) c)) :
    mandelbrot_point c (m + 1 + 1) = 1 := by
  show mandelAux c ⟨0, 0⟩ (m + 1 + 1) 0 = 1
  rw [mandelAux_succ, step_zero, if_neg h0, mandelAux_succ, if_pos h1]

lemma mandelbrot_point_center : mandelbrot_point ⟨-1/2, 0⟩ 80 = 80 := by
  have hP : ∀ z : Cplx,
      (z.imag = 0 ∧ -1/2 ≤ z.real ∧ z.real ≤ 1/2) →
      ¬ 4 < sqAbs (cAdd (cMul z z) ⟨-1/2, 0⟩) ∧
        ((cAdd (cMul z z) ⟨-1/2, 0⟩).imag = 0 ∧
          -1/2 ≤ (cAdd (cMul z z) ⟨-1/2, 0⟩).real ∧
          (cAdd (cMul z z) ⟨-1/2, 0⟩).real ≤ 1/2) := by
    rintro z ⟨him, hlo, hhi⟩
    have ht : z.real * z.real ≤ 1/4 := by nlinarith
    simp only [sqAbs, cAdd, cMul, him]
    refine ⟨?_, ?_, ?_, ?_⟩
    · rw [not_lt]
      nlinarith [sq_nonneg z.real, ht]
    · ring
    · nlinarith [sq_nonneg z.real]
    · nlinarith [sq_nonneg z.real, ht]
  have h := mandelAux_of_inv ⟨-1/2, 0⟩
    (fun z => z.imag = 0 ∧ -1/2 ≤ z.real ∧ z.real ≤ 1/2) hP 80 ⟨0, 0⟩ 0
    ⟨rfl, by norm_num, by norm_num⟩
  simpa [mandelbrot_point] using h

/-! ### Claims -/

/-- Claim C1: for width ≥ 1 and height ≥ 1, `mandelbrot_grid` returns a
grid with exactly `height` rows and `width` columns, and cell `[j][i]`
is the escape-time evaluation of `(xs[i], ys[j])` with the given
`max_iter`, where `xs = linspace xmin xmax width` and
`ys = linspace ymin ymax height`. -/
theorem C1_grid_shape_cells (xmin xmax ymin ymax : ℚ) (w h m : Nat)
    (_hw : 1 ≤ w) (_hh : 1 ≤ h) :
    (mandelbrot_grid xmin xmax ymin ymax w h m).length = h ∧
    (∀ j, j < h → ((mandelbrot_grid xmin xmax ymin ymax w h m).getD j []).length = w) ∧
    (∀ j i, j < h → i < w →
      ((mandelbrot_grid xmin xmax ymin ymax w h m).getD j []).getD i 0
        = mandelbrot_point
            ⟨(linspace xmin xmax w).getD i 0, (linspace ymin ymax h).getD j 0⟩ m) := by
  refine ⟨?_, ?_, ?_⟩
  · simp only [mandelbrot_grid]
    rw [List.length_map, List.length_range]
  · intro j hj
    simp only [mandelbrot_grid]
    rw [getD_map_range _ _ hj, List.length_map, List.length_range]
  · intro j i hj hi
    exact grid_cell xmin xmax ymin ymax w h m j i hj hi

theorem C1_witness :
    ((mandelbrot_grid 0 1 0 1 1 1 0).getD 0 []).getD 0 0
      = mandelbrot_point ⟨(linspace 0 1 1).getD 0 0, (linspace 0 1 1).getD 0 0⟩ 0 :=
  (C1_grid_shape_cells 0 1 0 1 1 1 0 (by decide) (by decide)).2.2 0 0
    (by decide) (by decide)

/-- Claim C2: `mandelbrot_point c m` lies in `[0, m]` for every `c` (the
lower bound holds because the result is a natural number), and hence
every cell of `mandelbrot_grid` lies in `[0, m]`. -/
theorem C2_cell_bounds (c : Cplx) (m : Nat) (xmin xmax ymin ymax : ℚ) (w h : Nat) :
    mandelbrot_point c m ≤ m ∧
    ∀ row ∈ mandelbrot_grid xmin xmax ymin ymax w h m, ∀ v ∈ row, v ≤ m := by
  constructor
  · have h0 := mandelAux_le c m ⟨0, 0⟩ 0
    simpa [mandelbrot_point] using h0
  · intro row hrow v hv
    simp only [mandelbrot_grid, List.mem_map] at hrow
    obtain ⟨j, _hj, rfl⟩ := hrow
    simp only [List.mem_map] at hv
    obtain ⟨i, _hi, rfl⟩ := hv
    have h0 := mandelAux_le
      (⟨(linspace xmin xmax w).getD i 0, (linspace ymin ymax h).getD j 0⟩ : Cplx)
      m ⟨0, 0⟩ 0
    simpa [mandelbrot_point] using h0

theorem C2_witness : mandelbrot_point ⟨0, 0⟩ 0 ≤ 0 ∧ (0 : Nat) ≤ 0 :=
  ⟨(C2_cell_bounds ⟨0, 0⟩ 0 0 1 0 1 1 1).1,
   (C2_cell_bounds ⟨0, 0⟩ 0 0 1 0 1 1 1).2 [0] (by decide) 0 (by decide)⟩

/-- Claim C3: `linspace start stop count` has exactly `count` elements,
its element 0 equals `start`, `count = 1` yields exactly `[start]`, and
for `count > 1` the last element equals `stop` (exactly, in the rational
model) and element `i` equals `start + i * (stop - start)/(count - 1)`. -/
theorem C3_sample_axis (start stop : ℚ) (count : Nat) (h : 1 ≤ count) :
    (linspace start stop count).length = count ∧
    (linspace start stop count).getD 0 0 = start ∧
    (count = 1 → linspace start stop count = [start]) ∧
    (1 < count →
      (linspace start stop count).getD (count - 1) 0 = stop ∧
      ∀ i, i < count →
        (linspace start stop count).getD i 0
          = start + (i : ℚ) * ((stop - start) / ((count : ℚ) - 1))) := by
  refine ⟨linspace_length start stop count, ?_, ?_, ?_⟩
  · rcases eq_or_ne count 1 with h1 | h1
    · subst h1
      simp [linspace]
    · rw [linspace_getD start stop h1 (by omega)]
      simp
  · intro h1
    simp [linspace, h1]
  · intro h2
    have hne : ((count : ℚ) - 1) ≠ 0 := by
      have hlt : (1 : ℚ) < (count : ℚ) := by exact_mod_cast h2
      exact sub_ne_zero.mpr (ne_of_gt hlt)
    constructor
    · rw [linspace_getD start stop (by omega) (by omega), Nat.cast_sub h, Nat.cast_one]
      field_simp
    · intro i hi
      exact linspace_getD start stop (by omega) hi

theorem C3_witness :
    (linspace 0 1 2).length = 2 ∧ (linspace 0 1 2).getD 1 0 = 1 :=
  ⟨(C3_sample_axis 0 1 2 (by decide)).1,
   ((C3_sample_axis 0 1 2 (by decide)).2.2.2 (by decide)).1⟩

/-- Claim C4: the origin never escapes: `mandelbrot_point ⟨0, 0⟩ max_iter`
returns exactly `max_iter` for every `max_iter ≥ 0`. -/
theorem C4_origin_never_escapes (max_iter : Nat) :
    mandelbrot_point ⟨0, 0⟩ max_iter = max_iter := by
  have hP : ∀ z : Cplx, z = ⟨0, 0⟩ →
      ¬ 4 < sqAbs (cAdd (cMul z z) ⟨0, 0⟩) ∧ cAdd (cMul z z) ⟨0, 0⟩ = ⟨0, 0⟩ := by
    rintro z rfl
    constructor
    · norm_num [sqAbs, cAdd, cMul]
    · norm_num [cAdd, cMul, Cplx.mk.injEq]
  have h := mandelAux_of_inv ⟨0, 0⟩ (fun z => z = ⟨0, 0⟩) hP max_iter ⟨0, 0⟩ 0 rfl
  simpa [mandelbrot_point] using h

/-- Claim C5 counterexample: the source's sampler does not fail for
`count = 0`: where the spec's `InvalidArgument`-raising sampler errors,
`linspace` returns `[]`, and `mandelbrot_grid` with `width = 0` returns
three empty rows instead of propagating a failure. -/
theorem C5_counterexample :
    sample_axis_spec 0 1 0 = Except.error "InvalidArgument" ∧
    linspace 0 1 0 = [] ∧
    mandelbrot_grid (-2) 1 (-3/2) (3/2) 0 3 80 = [[], [], []] :=
  ⟨rfl, rfl, rfl⟩

/-- Claim C5 amended: for `count = 0` (the only natural count below 1)
`linspace` returns the empty list without failing, and `mandelbrot_grid`
with `width = 0` returns `height` empty rows rather than propagating an
`InvalidArgument` failure. -/
theorem C5_no_failure (start stop xmin xmax ymin ymax : ℚ) (h m : Nat) :
    linspace start stop 0 = [] ∧
    mandelbrot_grid xmin xmax ymin ymax 0 h m = List.replicate h [] := by
  constructor
  · simp [linspace]
  · exact grid_width_zero xmin xmax ymin ymax h m

/-- Claim C6: `mandelbrot_grid` over the default bounds with
`width = height = 3` and `max_iter = 80` gives corner cells strictly
below 80 and a center cell (sample point `(-1/2, 0)`) exactly 80. -/
theorem C6_default_view :
    ((mandelbrot_grid (-2) 1 (-3/2) (3/2) 3 3 80).getD 0 []).getD 0 0 < 80 ∧
    ((mandelbrot_grid (-2) 1 (-3/2) (3/2) 3 3 80).getD 0 []).getD 2 0 < 80 ∧
    ((mandelbrot_grid (-2) 1 (-3/2) (3/2) 3 3 80).getD 2 []).getD 0 0 < 80 ∧
    ((mandelbrot_grid (-2) 1 (-3/2) (3/2) 3 3 80).getD 2 []).getD 2 0 < 80 ∧
    ((mandelbrot_grid (-2) 1 (-3/2) (3/2) 3 3 80).getD 1 []).getD 1 0 = 80 := by
  have hx0 : (linspace (-2) 1 3).getD 0 0 = -2 := by
    rw [linspace_getD (-2) 1 (by decide) (by decide)]
    norm_num
  have hx1 : (linspace (-2) 1 3).getD 1 0 = -1/2 := by
    rw [linspace_getD (-2) 1 (by decide) (by decide)]
    norm_num
  have hx2 : (linspace (-2) 1 3).getD 2 0 = 1 := by
    rw [linspace_getD (-2) 1 (by decide) (by decide)]
    norm_num
  have hy0 : (linspace (-3/2) (3/2) 3).getD 0 0 = -3/2 := by
    rw [linspace_getD (-3/2) (3/2) (by decide) (by decide)]
    norm_num
  have hy1 : (linspace (-3/2) (3/2) 3).getD 1 0 = 0 := by
    rw [linspace_getD (-3/2) (3/2) (by decide) (by decide)]
    norm_num
  have hy2 : (linspace (-3/2) (3/2) 3).getD 2 0 = 3/2 := by
    rw [linspace_getD (-3/2) (3/2) (by decide) (by decide)]
    norm_num
  have e00 : mandelbrot_point ⟨-2, -3/2⟩ 80 = 0 :=
    mandelbrot_point_escape0 ⟨-2, -3/2⟩ 79 (by norm_num [sqAbs])
  have e20 : mandelbrot_point ⟨-2, 3/2⟩ 80 = 0 :=
    mandelbrot_point_escape0 ⟨-2, 3/2⟩ 79 (by norm_num [sqAbs])
  have e02 : mandelbrot_point ⟨1, -3/2⟩ 80 = 1 :=
    mandelbrot_point_escape1 ⟨1, -3/2⟩ 78 (by norm_num [sqAbs])
      (by norm_num [sqAbs, cAdd, cMul])
  have e22 : mandelbrot_point ⟨1, 3/2⟩ 80 = 1 :=
    mandelbrot_point_escape1 ⟨1, 3/2⟩ 78 (by norm_num [sqAbs])
      (by norm_num [sqAbs, cAdd, cMul])
  refine ⟨?_, ?_, ?_, ?_, ?_⟩
  · rw [grid_cell (-2) 1 (-3/2) (3/2) 3 3 80 0 0 (by decide) (by decide), hx0, hy0, e00]
    omega
  · rw [grid_cell (-2) 1 (-3/2) (3/2) 3 3 80 0 2 (by decide) (by decide), hx2, hy0, e02]
    omega
  · rw [grid_cell (-2) 1 (-3/2) (3/2) 3 3 80 2 0 (by decide) (by decide), hx0, hy2, e20]
    omega
  · rw [grid_cell (-2) 1 (-3/2) (3/2) 3 3 80 2 2 (by decide) (by decide), hx2, hy2, e22]
    omega
  · rw [grid_cell (-2) 1 (-3/2) (3/2) 3 3 80 1 1 (by decide) (by decide), hx1, hy1]
    exact mandelbrot_point_center

/-- Claim C7: `mandelbrot_point ⟨2, 2⟩ 80 = 0`: already the first
application of the recurrence gives `z₁ = c` with `|c|² = 8 > 4`. -/
theorem C7_divergent_point : mandelbrot_point ⟨2, 2⟩ 80 = 0 :=
  mandelbrot_point_escape0 ⟨2, 2⟩ 79 (by norm_num [sqAbs])

/-- Claim C8: for `count > 1`, consecutive elements of `linspace` differ
by the constant step `(stop - start)/(count - 1)`, and the sequence is
monotone non-decreasing whenever `stop ≥ start`. -/
theorem C8_step_monotone (start stop : ℚ) (count : Nat) (h : 1 < count) :
    (∀ i, i + 1 < count →
      (linspace start stop count).getD (i + 1) 0
        - (linspace start stop count).getD i 0
        = (stop - start) / ((count : ℚ) - 1)) ∧
    (start ≤ stop → ∀ i j, i ≤ j → j < count →
      (linspace start stop count).getD i 0 ≤ (linspace start stop count).getD j 0) := by
  have hne : count ≠ 1 := by omega
  constructor
  · intro i hi
    rw [linspace_getD start stop hne (by omega), linspace_getD start stop hne (by omega)]
    push_cast
    ring
  · intro hss i j hij hj
    rw [linspace_getD start stop hne (by omega), linspace_getD start stop hne hj]
    have hpos : (0 : ℚ) < (count : ℚ) - 1 := by
      have hlt : (1 : ℚ) < (count : ℚ) := by exact_mod_cast h
      linarith
    have hstep : (0 : ℚ) ≤ (stop - start) / ((count : ℚ) - 1) :=
      div_nonneg (by linarith) (le_of_lt hpos)
    have hcast : (i : ℚ) ≤ (j : ℚ) := by exact_mod_cast hij
    nlinarith [mul_le_mul_of_nonneg_right hcast hstep]

theorem C8_witness :
    (linspace 0 1 3).getD 0 0 ≤ (linspace 0 1 3).getD 2 0 :=
  (C8_step_monotone 0 1 3 (by decide)).2 (by norm_num) 0 2 (by decide) (by decide)

/-- Claim C9: with a zero iteration budget the loop body never runs, so
`mandelbrot_point c 0` returns `0 = max_iter` for every point `c`. -/
theorem C9_zero_budget (c : Cplx) : mandelbrot_point c 0 = 0 := rfl

/-- Claim C10: for `count = 0` the sampler returns the empty sequence
without raising (the divisor `count - 1` is `-1`, not `0`), and hence
`mandelbrot_grid` with `width = 0` returns `height` empty rows and with
`height = 0` returns a grid with no rows. -/
theorem C10_degenerate_grids (start stop xmin xmax ymin ymax : ℚ) (w h m : Nat) :
    linspace start stop 0 = [] ∧
    (mandelbrot_grid xmin xmax ymin ymax 0 h m).length = h ∧
    (∀ j, (mandelbrot_grid xmin xmax ymin ymax 0 h m).getD j [] = []) ∧
    mandelbrot_grid xmin xmax ymin ymax w 0 m = [] := by
  refine ⟨by simp [linspace], ?_, ?_, rfl⟩
  · rw [grid_width_zero xmin xmax ymin ymax h m, List.length_replicate]
  · intro j
    rw [grid_width_zero xmin xmax ymin ymax h m]
    rw [List.getD_eq_getElem?_getD, List.getElem?_replicate]
    split <;> rfl
